import Mathlib

/-!
Shallow embedding of the voice-assistant runtime (small-talking-bot) for
checking its specification.

Embedded components and their sources:
* `ProcessManager`   — api/process_manager.py (supervisor, status inference)
* `AudioFilter`      — src/speech_manager/audio_filter.py (band-pass filter)
* `listen`           — src/speech_manager/audio_input.py (SpeechToText.listen)
* `CacheManager`     — src/cache/cache_manager.py (question/answer cache)

Modelling conventions: Python strings are `String`; Python floats are `Rat`
(exact arithmetic; none of the checked properties depends on rounding);
fallible calls return `Except String`; the concurrent pieces (the monitor
thread, worker exit) are modelled as explicit transitions on the supervisor
state, so an interleaving is a sequence of transitions.
-/

deriving instance DecidableEq for Except

/-- Models the check that a list starts with the given pattern
(used to build substring containment, Python `pat in s`). -/
def listStartsWith : List Char → List Char → Bool
  | _, [] => true
  | [], _ :: _ => false
  | c :: cs, d :: ds => c = d && listStartsWith cs ds

/-- Substring containment on character lists: some suffix of `l` starts
with `p`.  Matches Python `p in l` semantics (empty pattern matches). -/
def listContainsSub : List Char → List Char → Bool
  | l, p =>
    if listStartsWith l p then true
    else
      match l with
      | [] => false
      | _ :: t => listContainsSub t p

/-- Python `pat in s` on strings, case-sensitive substring containment. -/
def strContains (s pat : String) : Bool :=
  listContainsSub s.data pat.data

/-- Python `str.strip()`: drop leading and trailing whitespace.
(Python strips a slightly larger Unicode whitespace set; the difference is
irrelevant to the worker lines handled here.) -/
def pyStrip (s : String) : String :=
  ⟨(s.data.dropWhile Char.isWhitespace).reverse.dropWhile Char.isWhitespace |>.reverse⟩

/-- Python `str.lower()`, per-character lowering. -/
def pyLower (s : String) : String :=
  ⟨s.data.map Char.toLower⟩

/-!
ProcessManager (api/process_manager.py).

State: `self.process : Optional[Popen]` and `self.status : str`.  Of the
`Popen` object the checked claims use only liveness (`poll() is None`), so a
handle is modelled by its current liveness; a worker exiting is the
environment flipping `alive` to `false` (transition `workerExits`).
The 500 ms grace sleep in `start_process` is modelled by the boolean input
`survivesGrace`: whether `poll()` still returns `None` after the sleep.
`stderrBuf` is the content of the dead processes stderr pipe, returned in
the drained-diagnostics component of the result.
-/

/-- One owned worker process, reduced to its observable liveness
(`alive = true` iff `poll() is None`). -/
structure Proc where
  alive : Bool
deriving DecidableEq

/-- Supervisor state: the fields of `ProcessManager.__init__`. -/
structure PMState where
  process : Option Proc
  status : String
deriving DecidableEq

/-- Python truthiness of `self.process and self.process.poll() is None`. -/
def procLive : Option Proc → Bool
  | some p => p.alive
  | none => false

/-- Environment transition: the owned worker exits (crash or normal end).
Not a supervisor operation; it models the OS between supervisor calls. -/
def workerExits (s : PMState) : PMState :=
  { s with process := s.process.map (fun _ => ⟨false⟩) }

/-- `ProcessManager.start_process` (lines 19-78).  Inputs beyond the state:
whether `os.path.exists(script_path)` holds, whether the spawned process is
still alive after the 0.5 s grace sleep, and the stderr content available if
it is not.  Result: (return value, drained stderr diagnostics, new state). -/
def start_process (s : PMState) (pathExists survivesGrace : Bool)
    (stderrBuf : String) : Bool × Option String × PMState :=
  if procLive s.process then
    (false, none, s)
  else if !pathExists then
    (false, none, s)
  else if !survivesGrace then
    (false, some stderrBuf, { process := none, status := "idle" })
  else
    (true, none, { process := some ⟨true⟩, status := "listening" })

/-- `ProcessManager.stop_process` (lines 80-111).  When no live process is
owned it sets status to idle and returns `False` (keeping a dead handle if
one is present, as the code does); otherwise terminate/kill always ends with
the process reaped, the handle cleared and status idle. -/
def stop_process (s : PMState) : Bool × PMState :=
  if !procLive s.process then
    (false, { s with status := "idle" })
  else
    (true, { process := none, status := "idle" })

/-- `ProcessManager.get_status` (lines 113-127): reconcile liveness, then
return the (possibly reset) status. -/
def get_status (s : PMState) : String × PMState :=
  match s.process with
  | some p =>
    if !p.alive then ("idle", { process := none, status := "idle" })
    else (s.status, s)
  | none => (s.status, s)

/-- `ProcessManager.is_running` (lines 129-137). -/
def is_running (s : PMState) : Bool :=
  procLive s.process

/-- Status inference of `_monitor_process` (lines 156-163): ordered,
case-sensitive substring rules, first match wins, fall through keeps the
current status. -/
def inferStatus (line cur : String) : String :=
  if strContains line "Listening" then "listening"
  else if strContains line "Speaking" || strContains line "Output" then "speaking"
  else if strContains line "Processing" || strContains line "Generating" then "processing"
  else cur

/-- One iteration of the `_monitor_process` read loop (lines 149-163): the
line is stripped, then matched; only the status is mutated. -/
def monitor_line (s : PMState) (line : String) : PMState :=
  { s with status := inferStatus (pyStrip line) s.status }

/-- The `finally` block of `_monitor_process` (lines 166-171): on stream
termination, under the lock, status is set to idle and the handle cleared. -/
def monitor_cleanup (_s : PMState) : PMState :=
  { process := none, status := "idle" }

/-- The invariant of claim C2: whenever no handle is owned the shared
status is idle. -/
def handleInv (s : PMState) : Prop :=
  s.process = none → s.status = "idle"

/-- C1: if the owned worker has exited since the last observation, the next
`get_status` call returns idle, resets the shared status to idle and clears
the handle, after which `is_running` is false; in particular a stale
listening status is never returned once the worker is dead. -/
theorem c1_status_reconciles_dead_worker :
    ∀ (s : PMState) (p : Proc), s.process = some p → p.alive = false →
      (get_status s).1 = "idle" ∧
      (get_status s).2 = ⟨none, "idle"⟩ ∧
      is_running (get_status s).2 = false ∧
      (get_status s).1 ≠ "listening" := by
  intro s p hp ha
  obtain ⟨pr, st⟩ := s
  obtain ⟨al⟩ := p
  replace hp : pr = some ⟨al⟩ := hp
  replace ha : al = false := ha
  subst hp
  subst ha
  exact ⟨rfl, rfl, rfl, (by decide : ("idle" : String) ≠ "listening")⟩

/-- Witness for C1 at the concrete stale state (dead handle, status still
listening). -/
theorem c1_witness :
    (get_status ⟨some ⟨false⟩, "listening"⟩).1 = "idle" ∧
    (get_status ⟨some ⟨false⟩, "listening"⟩).2 = ⟨none, "idle"⟩ ∧
    is_running (get_status ⟨some ⟨false⟩, "listening"⟩).2 = false ∧
    (get_status ⟨some ⟨false⟩, "listening"⟩).1 ≠ "listening" :=
  c1_status_reconciles_dead_worker ⟨some ⟨false⟩, "listening"⟩ ⟨false⟩ rfl rfl

/-- C3: calling start while a live handle is owned returns failure, drains
nothing, spawns nothing and leaves the whole state unchanged, for every
path-existence and grace-survival input. -/
theorem c3_start_already_running :
    ∀ (s : PMState) (p : Proc) (pathExists survivesGrace : Bool) (buf : String),
      s.process = some p → p.alive = true →
      start_process s pathExists survivesGrace buf = (false, none, s) := by
  intro s p pathExists survivesGrace buf hp ha
  obtain ⟨pr, st⟩ := s
  obtain ⟨al⟩ := p
  replace hp : pr = some ⟨al⟩ := hp
  replace ha : al = true := ha
  subst hp
  subst ha
  rfl

/-- Witness for C3 with a live listening session and both start inputs
favourable: the second start still fails and changes nothing. -/
theorem c3_witness :
    start_process ⟨some ⟨true⟩, "listening"⟩ true true "err" =
      (false, none, ⟨some ⟨true⟩, "listening"⟩) :=
  c3_start_already_running ⟨some ⟨true⟩, "listening"⟩ ⟨true⟩ true true "err" rfl rfl

/-- C4: from any state without a live worker, a start whose spawned process
dies within the grace period returns failure, drains the captured stderr,
clears the handle and sets status idle; `get_status` immediately afterwards
returns idle and `is_running` is false. -/
theorem c4_grace_period_crash :
    ∀ (s : PMState) (buf : String), procLive s.process = false →
      start_process s true false buf = (false, some buf, ⟨none, "idle"⟩) ∧
      (get_status ⟨none, "idle"⟩).1 = "idle" ∧
      is_running ⟨none, "idle"⟩ = false := by
  intro s buf h
  obtain ⟨pr, st⟩ := s
  rcases pr with _ | ⟨⟨al⟩⟩
  · exact ⟨rfl, rfl, rfl⟩
  · replace h : al = false := h
    subst h
    exact ⟨rfl, rfl, rfl⟩

/-- Witness for C4 from the idle state with a captured traceback. -/
theorem c4_witness :
    start_process ⟨none, "idle"⟩ true false "Traceback" =
      (false, some "Traceback", ⟨none, "idle"⟩) ∧
    (get_status ⟨none, "idle"⟩).1 = "idle" ∧
    is_running ⟨none, "idle"⟩ = false :=
  c4_grace_period_crash ⟨none, "idle"⟩ "Traceback" rfl

/-- C2 counterexample: the state with no handle and idle status satisfies
the invariant, yet one line-processing step on a buffered worker line
containing Listening (possible after a concurrent stop already cleared the
handle, since the read loop neither holds the lock nor checks the handle)
leaves no handle owned with a non-idle status. -/
theorem c2_counterexample :
    handleInv ⟨none, "idle"⟩ ∧
    monitor_line ⟨none, "idle"⟩ "Listening" = ⟨none, "listening"⟩ ∧
    ¬ handleInv (monitor_line ⟨none, "idle"⟩ "Listening") := by
  refine ⟨fun _ => rfl, rfl, fun h => ?_⟩
  exact absurd (h rfl) (by decide)

/-- C2 (amended): the invariant (status is idle whenever no handle is
owned) is preserved by start, stop, get_status and the monitor cleanup on
stream termination, and by a line-processing step whenever a handle is
owned; the line-processing step alone can break it when no handle is owned,
because it updates the status without checking the handle. -/
theorem c2_amended_invariant_preservation :
    ∀ (s : PMState) (pathExists survivesGrace : Bool) (buf line : String),
      handleInv s →
        handleInv (start_process s pathExists survivesGrace buf).2.2 ∧
        handleInv (stop_process s).2 ∧
        handleInv (get_status s).2 ∧
        handleInv (monitor_cleanup s) ∧
        (s.process ≠ none → handleInv (monitor_line s line)) := by
  intro s pathExists survivesGrace buf line hI
  obtain ⟨pr, st⟩ := s
  refine ⟨?_, ?_, ?_, fun _ => rfl, ?_⟩
  · rcases pr with _ | ⟨⟨al⟩⟩
    · cases pathExists <;> cases survivesGrace <;>
        first
          | exact hI
          | exact fun _ => rfl
          | exact fun h => by cases h
    · cases al <;> cases pathExists <;> cases survivesGrace <;>
        first
          | exact hI
          | exact fun _ => rfl
          | exact fun h => by cases h
  · rcases pr with _ | ⟨⟨al⟩⟩
    · exact fun _ => rfl
    · cases al <;> exact fun _ => rfl
  · rcases pr with _ | ⟨⟨al⟩⟩
    · exact hI
    · cases al <;>
        first
          | exact fun _ => rfl
          | exact fun h => by cases h
  · intro hne
    rcases pr with _ | ⟨⟨al⟩⟩
    · exact absurd rfl hne
    · exact fun h => by cases h

/-- Witness for C2 (amended) at a live listening state and a worker line. -/
theorem c2_witness :
    handleInv (start_process ⟨some ⟨true⟩, "listening"⟩ true true "err").2.2 ∧
    handleInv (stop_process ⟨some ⟨true⟩, "listening"⟩).2 ∧
    handleInv (get_status ⟨some ⟨true⟩, "listening"⟩).2 ∧
    handleInv (monitor_cleanup ⟨some ⟨true⟩, "listening"⟩) ∧
    ((⟨some ⟨true⟩, "listening"⟩ : PMState).process ≠ none →
      handleInv (monitor_line ⟨some ⟨true⟩, "listening"⟩ "Speaking: hi")) :=
  c2_amended_invariant_preservation ⟨some ⟨true⟩, "listening"⟩ true true "err"
    "Speaking: hi" (fun h => by cases h)

/-- C8: the status-inference rules are applied in order, case-sensitively,
first match wins — a line containing Listening maps to listening, otherwise
Speaking or Output maps to speaking, otherwise Processing or Generating maps
to processing, otherwise the status is unchanged; and feeding the three
example worker lines in order from any prior status produces exactly the
status sequence listening, processing, speaking. -/
theorem c8_status_inference_rules :
    (∀ line cur : String,
      (strContains line "Listening" = true → inferStatus line cur = "listening") ∧
      (strContains line "Listening" = false →
        (strContains line "Speaking" || strContains line "Output") = true →
        inferStatus line cur = "speaking") ∧
      (strContains line "Listening" = false → strContains line "Speaking" = false →
        strContains line "Output" = false →
        (strContains line "Processing" || strContains line "Generating") = true →
        inferStatus line cur = "processing") ∧
      (strContains line "Listening" = false → strContains line "Speaking" = false →
        strContains line "Output" = false → strContains line "Processing" = false →
        strContains line "Generating" = false → inferStatus line cur = cur)) ∧
    (∀ st0 : String,
      (monitor_line ⟨some ⟨true⟩, st0⟩ "STT: Listening...").status = "listening" ∧
      (monitor_line (monitor_line ⟨some ⟨true⟩, st0⟩ "STT: Listening...")
          "Generating response...").status = "processing" ∧
      (monitor_line (monitor_line (monitor_line ⟨some ⟨true⟩, st0⟩
          "STT: Listening...") "Generating response...")
          "Speaking: hello").status = "speaking") := by
  constructor
  · intro line cur
    refine ⟨fun h1 => ?_, fun h1 h2 => ?_, fun h1 h2 h3 h4 => ?_,
      fun h1 h2 h3 h4 h5 => ?_⟩
    · simp [inferStatus, h1]
    · simp [inferStatus, h1, h2]
    · simp [inferStatus, h1, h2, h3, h4]
    · simp [inferStatus, h1, h2, h3, h4, h5]
  · intro st0
    have h1 : monitor_line ⟨some ⟨true⟩, st0⟩ "STT: Listening..." =
        ⟨some ⟨true⟩, "listening"⟩ := by
      have hc : strContains (pyStrip "STT: Listening...") "Listening" = true := by
        decide
      simp [monitor_line, inferStatus, hc]
    rw [h1]
    exact ⟨rfl, by decide, by decide⟩

/-- Witness for C8: the first rule fired on a concrete line, and the full
three-line scenario from the idle status. -/
theorem c8_witness :
    inferStatus "STT: Listening..." "idle" = "listening" ∧
    (monitor_line (monitor_line (monitor_line ⟨some ⟨true⟩, "idle"⟩
        "STT: Listening...") "Generating response...")
        "Speaking: hello").status = "speaking" :=
  ⟨(c8_status_inference_rules.1 "STT: Listening..." "idle").1 (by decide),
   (c8_status_inference_rules.2 "idle").2.2⟩

/-!
BandpassFilter (src/speech_manager/audio_filter.py).

`AudioFilterConfig` is the pydantic model: its field validators are
`low_cutoff_hz >= 20`, `high_cutoff_hz <= 20000`, `order` in `[1, 10]`
(lines 27-42); violating them raises a ValidationError when the config is
built.  `AudioFilter.__init__` (design) computes the Nyquist frequency as
half the sample rate, normalizes both cutoffs against it and calls
`scipy.signal.butter(order, [low, high], btype=band)` (lines 72-85).

`butter` is an external collaborator modelled from its documented contract:
for a digital band filter it raises a ValueError unless the normalized
critical frequencies satisfy `0 < low`, `0 < high`, `low < high`, `low < 1`
and `high < 1`, and on success returns numerator and denominator coefficient
arrays of length `2 * order + 1` each.  The numeric coefficient values are
irrelevant to every checked claim (only validation and array lengths are),
so they are abstracted to zeros; likewise `filtfilt` is modelled from its
documented contract: with default padding it raises a ValueError unless the
input is longer than `padlen = 3 * max(len(a), len(b))`, and on success
returns an array of the same length as the input (modelled as the input).
-/

/-- The pydantic configuration model fields (floats as exact rationals). -/
structure AudioFilterConfig where
  low_cutoff_hz : Rat
  high_cutoff_hz : Rat
  order : Int
deriving DecidableEq

/-- scipy.signal.butter for a digital band-pass filter, modelled from its
documented input validation and output shape (see the section comment). -/
def butter (order : Int) (low high : Rat) : Except String (List Rat × List Rat) :=
  if 0 < low ∧ 0 < high ∧ low < high ∧ low < 1 ∧ high < 1 then
    .ok (List.replicate (2 * order.toNat + 1) 0,
         List.replicate (2 * order.toNat + 1) 0)
  else
    .error "ValueError"

/-- The designed filter: the numerator and denominator coefficient arrays
stored by `AudioFilter.__init__` as `self.b`, `self.a`. -/
structure AudioFilter where
  b : List Rat
  a : List Rat
deriving DecidableEq

/-- Construction of the filter from a config and a sample rate: the pydantic
field validation of `AudioFilterConfig` followed by `AudioFilter.__init__`
(lines 56-86), which divides both cutoffs by the Nyquist frequency
(half the sample rate) and calls `butter`. -/
def design (config : AudioFilterConfig) (samplerate : Int) : Except String AudioFilter :=
  if 20 ≤ config.low_cutoff_hz ∧ config.high_cutoff_hz ≤ 20000 ∧
      1 ≤ config.order ∧ config.order ≤ 10 then
    (butter config.order (config.low_cutoff_hz / ((samplerate : Rat) / 2))
        (config.high_cutoff_hz / ((samplerate : Rat) / 2))).map
      (fun ba => ⟨ba.1, ba.2⟩)
  else
    .error "ValidationError"

/-- scipy.signal.filtfilt with default padding, modelled from its documented
contract: fails unless the input is longer than `3 * max(len(a), len(b))`,
output length equals input length (values abstracted). -/
def filtfilt (b a : List Rat) (x : List Rat) : Except String (List Rat) :=
  if x.length ≤ 3 * max a.length b.length then .error "padlen"
  else .ok x

/-- `AudioFilter.process` (lines 88-103): an empty chunk is returned
unchanged, otherwise the stored coefficients are applied with `filtfilt`. -/
def AudioFilter.process (f : AudioFilter) (audio_chunk : List Rat) :
    Except String (List Rat) :=
  if audio_chunk.length = 0 then .ok audio_chunk
  else filtfilt f.b f.a audio_chunk

/-- C5: design fails whenever the cutoffs are not ordered, either cutoff is
outside the open interval (0, Nyquist) with Nyquist half the sample rate, or
the order is outside [1, 10]; and chunk processing can never raise a
configuration error (its only failure is the short-chunk padding error), so
configuration errors are rejected at configuration time only. -/
theorem c5_design_rejects_invalid_config :
    (∀ (low high : Rat) (order sr : Int),
      (high ≤ low ∨ low ≤ 0 ∨ (sr : Rat) / 2 ≤ low ∨ high ≤ 0 ∨
        (sr : Rat) / 2 ≤ high ∨ order < 1 ∨ 10 < order) →
      ∃ e, design ⟨low, high, order⟩ sr = .error e) ∧
    (∀ (f : AudioFilter) (chunk : List Rat),
      f.process chunk ≠ .error "ValidationError" ∧
      f.process chunk ≠ .error "ValueError") := by
  constructor
  · intro low high order sr hbad
    by_cases hv : 20 ≤ low ∧ high ≤ 20000 ∧ 1 ≤ order ∧ order ≤ 10
    · obtain ⟨h20, h2k, ho1, ho10⟩ := hv
      have hbf : butter order (low / ((sr : Rat) / 2)) (high / ((sr : Rat) / 2)) =
          .error "ValueError" := by
        unfold butter
        rw [if_neg ?hc]
        case hc =>
          rintro ⟨hc1, hc2, hc3, hc4, hc5⟩
          rcases lt_trichotomy ((sr : Rat) / 2) 0 with hneg | hzero | hpos
          · exact absurd hc1
              (not_lt.mpr (div_neg_of_pos_of_neg (by linarith) hneg).le)
          · rw [hzero, div_zero] at hc1
            exact lt_irrefl 0 hc1
          · have hlh : low < high := (div_lt_div_iff_of_pos_right hpos).mp hc3
            have hln : low < (sr : Rat) / 2 := (div_lt_one hpos).mp hc4
            have hhn : high < (sr : Rat) / 2 := (div_lt_one hpos).mp hc5
            have hh0 : 0 < high := by
              have h2 := (lt_div_iff₀ hpos).mp hc2
              rw [zero_mul] at h2
              exact h2
            rcases hbad with h | h | h | h | h | h | h
            · linarith
            · linarith
            · linarith
            · linarith
            · linarith
            · exact absurd ho1 (not_le.mpr h)
            · exact absurd ho10 (not_le.mpr h)
      refine ⟨"ValueError", ?_⟩
      simp only [design]
      rw [if_pos ⟨h20, h2k, ho1, ho10⟩]
      rw [hbf]
      rfl
    · refine ⟨"ValidationError", ?_⟩
      simp only [design]
      rw [if_neg hv]
  · intro f chunk
    constructor
    · unfold AudioFilter.process filtfilt
      split
      · simp
      · split
        · intro h
          injection h with h2
          exact absurd h2 (by decide)
        · simp
    · unfold AudioFilter.process filtfilt
      split
      · simp
      · split
        · intro h
          injection h with h2
          exact absurd h2 (by decide)
        · simp

/-- Witness for C5 at an inverted band (low 100 Hz above high 50 Hz). -/
theorem c5_witness : ∃ e, design ⟨100, 50, 5⟩ 16000 = Except.error e :=
  c5_design_rejects_invalid_config.1 100 50 5 16000 (Or.inl (by decide))

/-- C9 counterexample: the spec 10 Hz to 7999 Hz, order 5, at 16 kHz sample
rate is valid in the sense of the claim (0 < low < high < Nyquist, order in
[1, 10]) yet design fails, because the pydantic field validator requires
`low_cutoff_hz >= 20`; and for a successfully designed default filter
(80 Hz to 8000 Hz, order 5, 44.1 kHz), a non-empty 5-sample chunk makes
apply fail with the padding-length error instead of returning an
equal-length output. -/
theorem c9_counterexample :
    ((0 : Rat) < 10 ∧ (10 : Rat) < 7999 ∧ (7999 : Rat) < (16000 : Rat) / 2 ∧
      (1 : Int) ≤ 5 ∧ (5 : Int) ≤ 10) ∧
    design ⟨10, 7999, 5⟩ 16000 = .error "ValidationError" ∧
    design ⟨80, 8000, 5⟩ 44100 =
      .ok ⟨List.replicate 11 0, List.replicate 11 0⟩ ∧
    AudioFilter.process ⟨List.replicate 11 0, List.replicate 11 0⟩
      (List.replicate 5 0) = .error "padlen" := by
  refine ⟨by norm_num, by decide, ?_, by decide⟩
  simp only [design]
  rw [if_pos (by norm_num)]
  have hbf : butter 5 ((80 : Rat) / (((44100 : Int) : Rat) / 2))
      ((8000 : Rat) / (((44100 : Int) : Rat) / 2)) =
      .ok (List.replicate 11 0, List.replicate 11 0) := by
    unfold butter
    rw [if_pos (by norm_num)]
    rfl
  rw [hbf]
  rfl

/-- C9 (amended): design succeeds for every spec whose cutoffs additionally
satisfy the pydantic field bounds (20 <= low and high <= 20000) along with
low < high < Nyquist and order in [1, 10]; for such a filter an empty chunk
is returned empty unconditionally, and apply returns an output of the same
length as the input for every chunk longer than the filtfilt padding length
3 * (2 * order + 1); shorter non-empty chunks fail (the spec flags this
short-chunk case as an open question). -/
theorem c9_amended_design_succeeds_and_preserves_length :
    ∀ (low high : Rat) (order sr : Int),
      20 ≤ low → low < high → high ≤ 20000 → high < (sr : Rat) / 2 →
      1 ≤ order → order ≤ 10 →
      design ⟨low, high, order⟩ sr =
        .ok ⟨List.replicate (2 * order.toNat + 1) 0,
          List.replicate (2 * order.toNat + 1) 0⟩ ∧
      AudioFilter.process ⟨List.replicate (2 * order.toNat + 1) 0,
          List.replicate (2 * order.toNat + 1) 0⟩ [] = .ok [] ∧
      (∀ chunk : List Rat, 3 * (2 * order.toNat + 1) < chunk.length →
        ∃ out, AudioFilter.process ⟨List.replicate (2 * order.toNat + 1) 0,
            List.replicate (2 * order.toNat + 1) 0⟩ chunk = .ok out ∧
          out.length = chunk.length) := by
  intro low high order sr h20 hlh h2k hnyq ho1 ho10
  have hl0 : (0 : Rat) < low := by linarith
  have hh0 : (0 : Rat) < high := by linarith
  have hpos : (0 : Rat) < (sr : Rat) / 2 := by linarith
  refine ⟨?_, rfl, ?_⟩
  · have hbf : butter order (low / ((sr : Rat) / 2)) (high / ((sr : Rat) / 2)) =
        .ok (List.replicate (2 * order.toNat + 1) 0,
             List.replicate (2 * order.toNat + 1) 0) := by
      unfold butter
      rw [if_pos ⟨div_pos hl0 hpos, div_pos hh0 hpos,
        (div_lt_div_iff_of_pos_right hpos).mpr hlh,
        (div_lt_one hpos).mpr (by linarith),
        (div_lt_one hpos).mpr hnyq⟩]
    simp only [design]
    rw [if_pos ⟨h20, h2k, ho1, ho10⟩]
    rw [hbf]
    rfl
  · intro chunk hlen
    have hne : chunk.length ≠ 0 := by omega
    refine ⟨chunk, ?_, rfl⟩
    unfold AudioFilter.process filtfilt
    rw [if_neg hne]
    rw [if_neg ?hpad]
    case hpad =>
      simp only [List.length_replicate, max_self]
      omega

/-- Witness for C9 (amended) at the default configuration (80 Hz to
8000 Hz, order 5) and a 44.1 kHz sample rate. -/
theorem c9_witness :
    design ⟨80, 8000, 5⟩ 44100 =
      .ok ⟨List.replicate (2 * (5 : Int).toNat + 1) 0,
        List.replicate (2 * (5 : Int).toNat + 1) 0⟩ ∧
    AudioFilter.process ⟨List.replicate (2 * (5 : Int).toNat + 1) 0,
        List.replicate (2 * (5 : Int).toNat + 1) 0⟩ [] = .ok [] ∧
    (∀ chunk : List Rat, 3 * (2 * (5 : Int).toNat + 1) < chunk.length →
      ∃ out, AudioFilter.process ⟨List.replicate (2 * (5 : Int).toNat + 1) 0,
          List.replicate (2 * (5 : Int).toNat + 1) 0⟩ chunk = .ok out ∧
        out.length = chunk.length) :=
  c9_amended_design_succeeds_and_preserves_length 80 8000 5 44100
    (by decide) (by decide) (by decide) (by norm_num) (by decide) (by decide)

/-!
SpeechToText.listen (src/speech_manager/audio_input.py, lines 88-127).

The blocking loop pulls a raw chunk from the capture queue, filters it and
feeds it to the recognizer; when `AcceptWaveform` returns true it reads the
decoded text and returns it only if non-empty.  The whole body is wrapped in
a try/except over all exceptions which logs and returns the empty string.
A run of the loop is modelled by the sequence of observations it makes, one
per iteration: `recChunk none` is a chunk on which `AcceptWaveform` returned
false (no final result yet), `recChunk (some t)` a chunk on which the
recognizer produced a final result with text `t`, and `deviceError` an
audio-device (or any other) exception raised during the iteration.  A
result of `none` means the script ended with the call still blocked waiting
for further audio. -/
inductive ListenEvent where
  | recChunk (finalText : Option String)
  | deviceError
deriving DecidableEq

/-- `SpeechToText.listen` over a script of per-iteration observations. -/
def SpeechToText.listen : List ListenEvent → Option String
  | [] => none
  | ListenEvent.deviceError :: _ => some ""
  | ListenEvent.recChunk none :: rest => SpeechToText.listen rest
  | ListenEvent.recChunk (some t) :: rest =>
    if t = "" then SpeechToText.listen rest else some t

/-- C6: an audio-device failure during listening makes `listen` return the
empty-string failure result instead of raising across the pipeline
boundary, and that failure result is distinguishable from every successful
transcript, because an error-free run never returns the empty string. -/
theorem c6_device_error_returns_failure :
    (∀ (pre post : List ListenEvent), SpeechToText.listen pre = none →
      SpeechToText.listen (pre ++ ListenEvent.deviceError :: post) = some "") ∧
    (∀ (evs : List ListenEvent) (t : String),
      ListenEvent.deviceError ∉ evs → SpeechToText.listen evs = some t →
      t ≠ "") := by
  constructor
  · intro pre
    induction pre with
    | nil => intro post _; rfl
    | cons e rest ih =>
      intro post h
      cases e with
      | deviceError => simp [SpeechToText.listen] at h
      | recChunk o =>
        cases o with
        | none => exact ih post h
        | some t =>
          by_cases ht : t = ""
          · subst ht
            exact ih post h
          · rw [show SpeechToText.listen (ListenEvent.recChunk (some t) :: rest) =
                some t from by simp [SpeechToText.listen, ht]] at h
            exact absurd h (by simp)
  · intro evs
    induction evs with
    | nil => intro t _ h; simp [SpeechToText.listen] at h
    | cons e rest ih =>
      intro t hnotin h
      cases e with
      | deviceError => exact absurd (List.mem_cons_self _ _) hnotin
      | recChunk o =>
        have hrest : ListenEvent.deviceError ∉ rest :=
          fun hm => hnotin (List.mem_cons_of_mem _ hm)
        cases o with
        | none => exact ih t hrest h
        | some u =>
          by_cases hu : u = ""
          · subst hu
            exact ih t hrest h
          · rw [show SpeechToText.listen (ListenEvent.recChunk (some u) :: rest) =
                some u from by simp [SpeechToText.listen, hu]] at h
            injection h with h2
            subst h2
            exact hu

/-- Witness for C6: a device fault on the first iteration returns the empty
failure result, and a successful transcript is non-empty. -/
theorem c6_witness :
    SpeechToText.listen [ListenEvent.deviceError] = some "" ∧
    ("hello" : String) ≠ "" :=
  ⟨c6_device_error_returns_failure.1 [] [] rfl,
   c6_device_error_returns_failure.2 [ListenEvent.recChunk (some "hello")]
     "hello" (by decide) rfl⟩

/-- C7: a final recognizer result with empty text does not terminate the
session (the call keeps listening), and whenever an error-free listen call
returns a transcript, that transcript is non-empty and is produced by the
first final result carrying non-empty text, so each invocation returns at
most one non-empty final transcript. -/
theorem c7_returns_first_nonempty_final :
    (∀ rest : List ListenEvent,
      SpeechToText.listen (ListenEvent.recChunk (some "") :: rest) =
        SpeechToText.listen rest) ∧
    (∀ (evs : List ListenEvent) (t : String),
      ListenEvent.deviceError ∉ evs → SpeechToText.listen evs = some t →
      t ≠ "" ∧ ∃ pre post,
        evs = pre ++ ListenEvent.recChunk (some t) :: post ∧
        SpeechToText.listen pre = none) := by
  constructor
  · intro rest
    rfl
  · intro evs
    induction evs with
    | nil => intro t _ h; simp [SpeechToText.listen] at h
    | cons e rest ih =>
      intro t hnotin h
      cases e with
      | deviceError => exact absurd (List.mem_cons_self _ _) hnotin
      | recChunk o =>
        have hrest : ListenEvent.deviceError ∉ rest :=
          fun hm => hnotin (List.mem_cons_of_mem _ hm)
        cases o with
        | none =>
          obtain ⟨hne, pre, post, heq, hpre⟩ := ih t hrest h
          exact ⟨hne, ListenEvent.recChunk none :: pre, post,
            by rw [List.cons_append, heq], hpre⟩
        | some u =>
          by_cases hu : u = ""
          · subst hu
            obtain ⟨hne, pre, post, heq, hpre⟩ := ih t hrest h
            exact ⟨hne, ListenEvent.recChunk (some "") :: pre, post,
              by rw [List.cons_append, heq], hpre⟩
          · rw [show SpeechToText.listen (ListenEvent.recChunk (some u) :: rest) =
                some u from by simp [SpeechToText.listen, hu]] at h
            injection h with h2
            subst h2
            exact ⟨hu, [], rest, rfl, rfl⟩

/-- Witness for C7: a script with a silent chunk, an empty final and then a
non-empty final returns exactly that first non-empty transcript. -/
theorem c7_witness :
    ("hello" : String) ≠ "" ∧
    ∃ pre post,
      [ListenEvent.recChunk none, ListenEvent.recChunk (some ""),
        ListenEvent.recChunk (some "hello"), ListenEvent.recChunk (some "bye")] =
        pre ++ ListenEvent.recChunk (some "hello") :: post ∧
      SpeechToText.listen pre = none :=
  c7_returns_first_nonempty_final.2
    [ListenEvent.recChunk none, ListenEvent.recChunk (some ""),
      ListenEvent.recChunk (some "hello"), ListenEvent.recChunk (some "bye")]
    "hello" (by decide) rfl

/-!
CacheManager (src/cache/cache_manager.py).

The sqlite table `qa_cache` has a UNIQUE question column; a row is a
(question, answer) pair with the question stored normalized.  The table is
modelled as the list of rows in insertion order.  `add_answer` normalizes
the question (`question.lower().strip()`) and INSERTs; a uniqueness
violation raises IntegrityError which the except clause swallows, leaving
the table unchanged.  `get_answer` SELECTs the answer for the normalized
question. -/
structure CacheDB where
  rows : List (String × String)
deriving DecidableEq

/-- The normalization both methods apply: `question.lower().strip()`. -/
def normalize_question (question : String) : String :=
  pyStrip (pyLower question)

/-- `CacheManager.get_answer` (lines 40-60). -/
def get_answer (db : CacheDB) (question : String) : Option String :=
  (db.rows.find? (fun r => r.1 == normalize_question question)).map (fun r => r.2)

/-- `CacheManager.add_answer` (lines 62-78): INSERT of the normalized
question; on a UNIQUE violation the IntegrityError is swallowed and the
table is unchanged. -/
def add_answer (db : CacheDB) (question answer : String) : CacheDB :=
  if db.rows.any (fun r => r.1 == normalize_question question) then db
  else ⟨db.rows ++ [(normalize_question question, answer)]⟩

/-- An append after a failed lookup keeps earlier rows irrelevant: if no row
of the first list satisfies the search, find? continues in the second. -/
theorem find?_append_of_none {α : Type} (p : α → Bool) (l1 l2 : List α)
    (h : l1.find? p = none) : (l1 ++ l2).find? p = l2.find? p := by
  induction l1 with
  | nil => rfl
  | cons a t ih =>
    cases hp : p a with
    | true => simp [List.find?, hp] at h
    | false =>
      rw [List.cons_append]
      rw [List.find?_cons_of_neg _ (by simp [hp])]
      rw [List.find?_cons_of_neg _ (by simp [hp])] at h
      exact ih h

/-- C10: both cache methods key on the normalized question (lowercased and
stripped); after a first `add_answer` stored an answer under a fresh key, a
later `add_answer` whose question has the same normalized key is silently
swallowed and the cache is unchanged, so lookups still return the first
answer — first write wins, an existing entry is never overwritten. -/
theorem c10_cache_first_write_wins :
    ∀ (db : CacheDB) (q q2 a1 a2 : String),
      normalize_question q2 = normalize_question q →
      get_answer db q = none →
      get_answer (add_answer db q a1) q = some a1 ∧
      add_answer (add_answer db q a1) q2 a2 = add_answer db q a1 ∧
      get_answer (add_answer (add_answer db q a1) q2 a2) q = some a1 := by
  intro db q q2 a1 a2 hnorm hmiss
  have hfind : db.rows.find? (fun r => r.1 == normalize_question q) = none := by
    cases hfo : db.rows.find? (fun r => r.1 == normalize_question q) with
    | none => rfl
    | some r =>
      rw [get_answer, hfo] at hmiss
      simp at hmiss
  have hany : db.rows.any (fun r => r.1 == normalize_question q) = false := by
    rw [List.any_eq_false]
    intro r hr
    have := List.find?_eq_none.mp hfind r hr
    simpa using this
  have hadd1 : add_answer db q a1 = ⟨db.rows ++ [(normalize_question q, a1)]⟩ := by
    rw [add_answer, hany]
    rfl
  have hget1 : get_answer (add_answer db q a1) q = some a1 := by
    rw [hadd1, get_answer]
    rw [find?_append_of_none _ _ _ hfind]
    simp [List.find?]
  have hadd2 : add_answer (add_answer db q a1) q2 a2 = add_answer db q a1 := by
    rw [add_answer, hnorm, hadd1]
    rw [if_pos ?hin]
    case hin =>
      simp [List.any_append]
  exact ⟨hget1, hadd2, by rw [hadd2]; exact hget1⟩

/-- Witness for C10: two textual variants of the same question normalize to
the same key; the second answer is dropped and the first survives. -/
theorem c10_witness :
    get_answer (add_answer ⟨[]⟩ " Hello " "a1") " Hello " = some "a1" ∧
    add_answer (add_answer ⟨[]⟩ " Hello " "a1") "HELLO" "a2" =
      add_answer ⟨[]⟩ " Hello " "a1" ∧
    get_answer (add_answer (add_answer ⟨[]⟩ " Hello " "a1") "HELLO" "a2")
      " Hello " = some "a1" :=
  c10_cache_first_write_wins ⟨[]⟩ " Hello " "HELLO" "a1" "a2" (by decide) rfl
